import Mathlib

/-!
Verification development for the Kite issue-tracking backend (Go).

This file gives a shallow embedding of the issue lifecycle engine:
the data model (issues, scopes, links, relationships), the repository
operations from `internal/repository` (CheckDuplicate, Create, Update,
FindByID, ResolveByScope, AddRelatedIssue), the service-layer
ResolveIssuesByScope, and the namespace-checking middleware from
`internal/middleware`.

Conventions of the embedding:
* the database is a `Store` value; every operation is a pure function
  from stores to stores, executed sequentially (one transaction at a time);
* row identifiers are natural numbers handed out from `Store.nextId`
  (the database assigns opaque unique ids);
* timestamps are natural numbers and `time.Now()` is an explicit `now`
  argument to each operation;
* Go `nil`-able fields and pointer-typed request fields are `Option`;
  fallible operations return `Except String`;
* the Go field name `Namespace` is rendered `nspace` because `namespace`
  is a Lean keyword.
-/

/-- Issue state constants. The `models` package defining these constants is
not part of the sources here; the values are modelled from the spec and the
CLI, which filters with `state=ACTIVE` / `state=RESOLVED`. All results below
depend only on the two constants being distinct, not on their spelling. -/
def IssueStateActive : String := "ACTIVE"

/-- Issue state constant for resolved issues; see `IssueStateActive`. -/
def IssueStateResolved : String := "RESOLVED"

/-- Row of the `issue_scopes` table (`models.IssueScope`). -/
structure IssueScope where
  id : Nat
  resourceType : String
  resourceName : String
  resourceNamespace : String
  deriving Repr, DecidableEq

/-- Row of the `issues` table (`models.Issue`). Severity, issue type and
state are strings in the Go model (typed string aliases). -/
structure Issue where
  id : Nat
  title : String
  description : String
  severity : String
  issueType : String
  state : String
  detectedAt : Nat
  resolvedAt : Option Nat
  nspace : String
  scopeId : Nat
  createdAt : Nat
  updatedAt : Nat
  deriving Repr, DecidableEq

/-- Row of the `links` table (`models.Link`). The Go row also has its own
primary key, which nothing in the verified operations reads; it is omitted. -/
structure Link where
  title : String
  url : String
  issueId : Nat
  deriving Repr, DecidableEq

/-- Row of the `related_issues` table (`models.RelatedIssue`). -/
structure RelatedIssue where
  sourceId : Nat
  targetId : Nat
  deriving Repr, DecidableEq

/-- The database: the four tables plus the id allocator. -/
structure Store where
  issues : List Issue
  scopes : List IssueScope
  links : List Link
  relations : List RelatedIssue
  nextId : Nat
  deriving Repr, DecidableEq

/-- The empty database. -/
def emptyStore : Store :=
  { issues := [], scopes := [], links := [], relations := [], nextId := 0 }

/-- Scope part of the creation request body (`dto.ScopeReqBody`). -/
structure ScopeReqBody where
  resourceType : String
  resourceName : String
  resourceNamespace : String
  deriving Repr, DecidableEq

/-- Link part of a creation request (`dto.CreateLinkRequest`). -/
structure CreateLinkRequest where
  title : String
  url : String
  deriving Repr, DecidableEq

/-- Creation request (`dto.CreateIssueRequest`). `state` is optional in the
JSON binding; absent is the empty string, as in Go. -/
structure CreateIssueRequest where
  title : String
  description : String
  severity : String
  issueType : String
  state : String
  nspace : String
  scope : ScopeReqBody
  links : List CreateLinkRequest
  deriving Repr, DecidableEq

/-- Update request (`dto.UpdateIssueRequest`): every field is a pointer in
Go, so `Option` here; `links` is a slice whose `nil` (= `none`) means
"leave the links alone" while `some []` clears them. -/
structure UpdateIssueRequest where
  title : Option String
  description : Option String
  severity : Option String
  issueType : Option String
  state : Option String
  resolvedAt : Option Nat
  links : Option (List CreateLinkRequest)
  deriving Repr, DecidableEq

/-- Lookup of a scope row by primary key (the SQL join
`issues.scope_id = issue_scopes.id`). -/
def scopeOf (scopes : List IssueScope) (sid : Nat) : Option IssueScope :=
  scopes.find? (fun sc => sc.id == sid)

namespace issueRepository

/-- Predicate of the duplicate query in `issueRepository.CheckDuplicate`:
`issues.namespace = req.Namespace AND issues.issue_type = req.IssueType AND
issues.state = active`, joined with
`issue_scopes.resource_type = req.Scope.ResourceType AND
issue_scopes.resource_name = req.Scope.ResourceName AND
issue_scopes.resource_namespace = req.Namespace`. Note that the scope
resource namespace is compared against the request namespace, not against
`req.Scope.ResourceNamespace`. -/
def duplicateMatches (scopes : List IssueScope) (req : CreateIssueRequest)
    (i : Issue) : Bool :=
  i.nspace == req.nspace && i.issueType == req.issueType &&
    i.state == IssueStateActive &&
    match scopeOf scopes i.scopeId with
    | some sc =>
        sc.resourceType == req.scope.resourceType &&
        sc.resourceName == req.scope.resourceName &&
        sc.resourceNamespace == req.nspace
    | none => false

/-- Embeds `issueRepository.CheckDuplicate`: `First` over the join, i.e. the
first issue row satisfying the duplicate predicate, `none` when the query
finds no row (`gorm.ErrRecordNotFound`). -/
def CheckDuplicate (s : Store) (req : CreateIssueRequest) : Option Issue :=
  s.issues.find? (duplicateMatches s.scopes req)

/-- A relationship edge together with its preloaded counterpart issue and
that issue's scope (`RelatedFrom.Target.Scope` / `RelatedTo.Source.Scope`). -/
structure RelatedEntry where
  rel : RelatedIssue
  counterpart : Option (Issue × Option IssueScope)
  deriving Repr, DecidableEq

/-- An issue as returned by `FindByID`: the row plus whatever associations
the query preloads. -/
structure LoadedIssue where
  issue : Issue
  scope : Option IssueScope
  links : List Link
  relatedFrom : List RelatedEntry
  relatedTo : List RelatedEntry
  deriving Repr, DecidableEq

/-- Embeds `issueRepository.FindByID`: `First` by id with preloads `Scope`,
`RelatedFrom.Target.Scope` and `RelatedTo.Source.Scope`. `Links` is not in
the preload list of this query, so the returned struct's links slice stays
at its zero value (empty), whatever the `links` table holds. A missing id
is `gorm.ErrRecordNotFound`, which the Go code converts into `(nil, nil)`:
here `none`, not an error. -/
def FindByID (s : Store) (id : Nat) : Option LoadedIssue :=
  match s.issues.find? (fun i => i.id == id) with
  | none => none
  | some i =>
      some
        { issue := i
          scope := scopeOf s.scopes i.scopeId
          links := []
          relatedFrom :=
            (s.relations.filter (fun r => r.sourceId == i.id)).map (fun r =>
              { rel := r
                counterpart :=
                  (s.issues.find? (fun t => t.id == r.targetId)).map
                    (fun t => (t, scopeOf s.scopes t.scopeId)) })
          relatedTo :=
            (s.relations.filter (fun r => r.targetId == i.id)).map (fun r =>
              { rel := r
                counterpart :=
                  (s.issues.find? (fun t => t.id == r.sourceId)).map
                    (fun t => (t, scopeOf s.scopes t.scopeId)) }) }

/-- The `updates` map of `issueRepository.Update` applied to the fetched row
`orig`: set each provided field; always set `updated_at := now`; when the
patch sets state to resolved and the fetched row was not already resolved,
set `resolved_at := now`; a `resolved_at` in the patch overrides that. -/
def applyUpdates (orig : Issue) (req : UpdateIssueRequest) (now : Nat) : Issue :=
  { orig with
    title := req.title.getD orig.title
    description := req.description.getD orig.description
    severity := req.severity.getD orig.severity
    issueType := req.issueType.getD orig.issueType
    state := req.state.getD orig.state
    resolvedAt :=
      match req.resolvedAt with
      | some t => some t
      | none =>
          match req.state with
          | some st =>
              if st == IssueStateResolved && !(orig.state == IssueStateResolved)
              then some now else orig.resolvedAt
          | none => orig.resolvedAt
    updatedAt := now }

/-- Embeds `issueRepository.Update`: fetch the row, error if absent; apply
the updates map to the row with that primary key; when the patch carries a
links slice, delete the issue's links and insert the patch's; return the
updated issue's id (the Go code returns the reloaded issue). -/
def Update (s : Store) (id : Nat) (req : UpdateIssueRequest) (now : Nat) :
    Except String (Nat × Store) :=
  match FindByID s id with
  | none => .error "issue not found"
  | some li =>
      let orig := li.issue
      let issues := s.issues.map fun i =>
        if i.id == id then applyUpdates orig req now else i
      let links :=
        match req.links with
        | none => s.links
        | some ls =>
            s.links.filter (fun l => !(l.issueId == id)) ++
              ls.map (fun lr => { title := lr.title, url := lr.url, issueId := id })
      .ok (id, { s with issues := issues, links := links })

/-- The update request that `issueRepository.Create` builds on the duplicate
path: title, description, severity and issue type from the request, state
only when the request carries one, and no links. -/
def dupUpdateReq (req : CreateIssueRequest) : UpdateIssueRequest :=
  { title := some req.title
    description := some req.description
    severity := some req.severity
    issueType := some req.issueType
    state := if req.state == "" then none else some req.state
    resolvedAt := none
    links := none }

/-- The scope row that `issueRepository.Create` inserts on the no-duplicate
path: the request's resource type and name, the resource namespace
defaulting to the issue namespace when empty. -/
def newScopeRow (s : Store) (req : CreateIssueRequest) : IssueScope :=
  { id := s.nextId
    resourceType := req.scope.resourceType
    resourceName := req.scope.resourceName
    resourceNamespace :=
      if req.scope.resourceNamespace == "" then req.nspace
      else req.scope.resourceNamespace }

/-- The issue row that `issueRepository.Create` inserts on the no-duplicate
path: the request fields, state defaulting to active, `detected_at = now`,
no `resolved_at`, and the freshly inserted scope row. -/
def newIssueRow (s : Store) (req : CreateIssueRequest) (now : Nat) : Issue :=
  { id := s.nextId + 1
    title := req.title
    description := req.description
    severity := req.severity
    issueType := req.issueType
    state := if req.state == "" then IssueStateActive else req.state
    detectedAt := now
    resolvedAt := none
    nspace := req.nspace
    scopeId := s.nextId
    createdAt := now
    updatedAt := now }

/-- Embeds `issueRepository.Create`: check for a duplicate; on a hit, update
the existing issue via `Update` with `dupUpdateReq`; otherwise insert a new
scope row and issue row (`newScopeRow`, `newIssueRow`) plus one link row per
request link, and return the fresh id. -/
def Create (s : Store) (req : CreateIssueRequest) (now : Nat) :
    Except String (Nat × Store) :=
  match CheckDuplicate s req with
  | some existing => Update s existing.id (dupUpdateReq req) now
  | none =>
      .ok (s.nextId + 1,
        { s with
          issues := s.issues ++ [newIssueRow s req now]
          scopes := s.scopes ++ [newScopeRow s req]
          links := s.links ++ req.links.map fun lr =>
            { title := lr.title, url := lr.url, issueId := s.nextId + 1 }
          nextId := s.nextId + 2 })

/-- Predicate of the id query in `issueRepository.ResolveByScope`:
`issues.state = active AND issues.namespace = ns`, joined with
`issue_scopes.resource_type = rt AND issue_scopes.resource_name = rn`. -/
def resolveMatches (scopes : List IssueScope) (rt rn ns : String)
    (i : Issue) : Bool :=
  i.state == IssueStateActive && i.nspace == ns &&
    match scopeOf scopes i.scopeId with
    | some sc => sc.resourceType == rt && sc.resourceName == rn
    | none => false

/-- Embeds `issueRepository.ResolveByScope`: pluck the ids of the matching
issues; if none, return 0 without error; otherwise update every issue row
whose id is in the list to resolved with `resolved_at` and `updated_at` set
to now, and return the number of rows the update touched. -/
def ResolveByScope (s : Store) (rt rn ns : String) (now : Nat) :
    Int × Store :=
  let ids := (s.issues.filter (resolveMatches s.scopes rt rn ns)).map (·.id)
  if ids.isEmpty then (0, s)
  else
    let issues := s.issues.map fun i =>
      if ids.contains i.id then
        { i with state := IssueStateResolved, resolvedAt := some now,
                 updatedAt := now }
      else i
    (((s.issues.filter (fun i => ids.contains i.id)).length : Int),
      { s with issues := issues })

/-- Embeds `issueRepository.AddRelatedIssue`: error when either endpoint is
missing; error when an edge already exists in either direction; otherwise
insert the `(source, target)` row. The Go function has no check that
`sourceID` differs from `targetID`. -/
def AddRelatedIssue (s : Store) (sourceID targetID : Nat) :
    Except String Store :=
  match FindByID s sourceID, FindByID s targetID with
  | some _, some _ =>
      if s.relations.any (fun r =>
          (r.sourceId == sourceID && r.targetId == targetID) ||
          (r.sourceId == targetID && r.targetId == sourceID)) then
        .error "relationship already exists"
      else
        .ok { s with relations :=
          s.relations ++ [{ sourceId := sourceID, targetId := targetID }] }
  | _, _ => .error "one or both issues not found"

end issueRepository

namespace IssueService

/-- Embeds `IssueService.ResolveIssuesByScope` from the services package.
The repository call `s.repo.ResolveByScope(...)` can fail at runtime (the
database layer), so its outcome is the `Except` argument. The Go body is:
`count, err := s.repo.ResolveByScope(...)`; `if err != nil { return 0, nil }`;
`return count, nil` — on a repository error it returns count 0 and a nil
error. -/
def ResolveIssuesByScope (repoResult : Except String Int) :
    Except String Int :=
  match repoResult with
  | .error _ => .ok 0
  | .ok count => .ok count

end IssueService

/-- Outcome of the Kubernetes self-subject access review call made by
`NamespaceChecker.checkPodAccess`: the cluster answered allowed, answered
denied, or the call itself failed (network error / timeout). -/
inductive ReviewOutcome
  | allowed
  | denied
  | netError
  deriving Repr, DecidableEq

/-- The gin request context as `CheckNamespacessAccess` reads it: the
`namespace` path parameter, the `namespace` query parameter, the request
method, and the optional `requestBody` context key (a string map set via
`c.Set`), from which the middleware would read the `namespace` entry. -/
structure GinContext where
  method : String
  paramNamespace : String
  queryNamespace : String
  requestBodyKey : Option (List (String × String))
  deriving Repr, DecidableEq

/-- Result of running the middleware: abort with an HTTP status and error
message, or fall through to the handler with the namespace it checked. -/
inductive MwResult
  | abort (status : Nat) (errMsg : String)
  | next (resolvedNs : String)
  deriving Repr, DecidableEq

namespace NamespaceChecker

/-- Namespace resolution of `CheckNamespacessAccess`: path parameter, then
query parameter, then — for POST and PUT only — the `namespace` entry of
the `requestBody` context key, if that key was set by earlier middleware. -/
def resolveNamespace (c : GinContext) : String :=
  let ns := c.paramNamespace
  let ns := if ns == "" then c.queryNamespace else ns
  if ns == "" then
    if c.method == "POST" || c.method == "PUT" then
      match c.requestBodyKey with
      | some bodyMap =>
          match bodyMap.lookup "namespace" with
          | some ns2 => ns2
          | none => ns
      | none => ns
    else ns
  else ns

/-- Embeds `NamespaceChecker.checkPodAccess`: with no client configured the
check is skipped (no error); otherwise a `SelfSubjectAccessReview` for verb
`get` on `pods` in the namespace is created; a failed call is an error, a
disallowed review is an error, an allowed review is `none` (no error). -/
def checkPodAccess (client : Option (String → ReviewOutcome)) (ns : String) :
    Option String :=
  match client with
  | none => none
  | some review =>
      match review ns with
      | .netError => some "failed to check namespace access"
      | .denied => some ("access denied to namespace " ++ ns)
      | .allowed => none

/-- Embeds `NamespaceChecker.CheckNamespacessAccess`: resolve the namespace;
empty means 400 Missing namespace; with no Kubernetes client the check is
skipped; any error from `checkPodAccess` — an explicit denial and a failed
review call alike — aborts with 403. -/
def CheckNamespacessAccess (client : Option (String → ReviewOutcome))
    (c : GinContext) : MwResult :=
  let ns := resolveNamespace c
  if ns == "" then .abort 400 "Missing namespace"
  else
    match client with
    | none => .next ns
    | some review =>
        match checkPodAccess (some review) ns with
        | some _ => .abort 403 "Access denied to this namespace"
        | none => .next ns

end NamespaceChecker

/-- An inbound HTTP request as far as namespace checking is concerned: the
method, the path parameter, the query parameter, and the `namespace` field
of the JSON body when the body carries one. -/
structure HttpRequest where
  method : String
  paramNamespace : String
  queryNamespace : String
  bodyNamespace : Option String
  deriving Repr, DecidableEq

/-- The gin context that `SetupRouter` delivers to `CheckNamespacessAccess`.
The router installs only Logger, ErrorHandler, CORS and Recovery before the
namespace checker, and no code anywhere in the repository calls
`c.Set("requestBody", ...)`, so the `requestBody` context key is always
unset when the checker runs — whatever the request body contains. -/
def ginContextOf (r : HttpRequest) : GinContext :=
  { method := r.method
    paramNamespace := r.paramNamespace
    queryNamespace := r.queryNamespace
    requestBodyKey := none }

/-! ## Derived definitions used by the statements -/

/-- One step of a sequence of repository creations: apply `Create` and keep
the resulting store (a failed call leaves the store unchanged). -/
def applyCreate (s : Store) (req : CreateIssueRequest) (now : Nat) : Store :=
  match issueRepository.Create s req now with
  | .ok p => p.2
  | .error _ => s

/-- A sequence of repository creations, each with its own timestamp. -/
def applyCreates (s : Store) (ops : List (CreateIssueRequest × Nat)) : Store :=
  ops.foldl (fun acc op => applyCreate acc op.1 op.2) s

/-- Number of active issues for a (namespace, issue type, scope resource
type, scope resource name) combination — the key quantified over in the
uniqueness claim. -/
def activeCount4 (s : Store) (ns t rt rn : String) : Nat :=
  (s.issues.filter (fun i =>
    i.state == IssueStateActive && i.nspace == ns && i.issueType == t &&
      match scopeOf s.scopes i.scopeId with
      | some sc => sc.resourceType == rt && sc.resourceName == rn
      | none => false)).length

/-- The key the duplicate lookup actually protects: as `activeCount4` but
additionally requiring the scope resource namespace to equal the issue
namespace (the lookup compares `issue_scopes.resource_namespace` against
the request namespace). -/
def dupKeyMatches (scopes : List IssueScope) (ns t rt rn : String)
    (i : Issue) : Bool :=
  i.nspace == ns && i.issueType == t && i.state == IssueStateActive &&
    match scopeOf scopes i.scopeId with
    | some sc =>
        sc.resourceType == rt && sc.resourceName == rn &&
        sc.resourceNamespace == ns
    | none => false

/-- Number of active issues on a protected key; see `dupKeyMatches`. -/
def activeKeyCount (s : Store) (ns t rt rn : String) : Nat :=
  (s.issues.filter (dupKeyMatches s.scopes ns t rt rn)).length

/-- The uniqueness invariant the create-or-update path maintains: at most
one active issue per (namespace, issue type, scope resource type, scope
resource name) among issues whose scope resource namespace equals their
issue namespace. -/
def ActiveUnique (s : Store) : Prop :=
  ∀ ns t rt rn, activeKeyCount s ns t rt rn ≤ 1

/-- Database well-formedness: issue ids are pairwise distinct, every issue
id is below the allocator, every issue's scope row exists, and every scope
id is below the allocator. -/
def Store.WF (s : Store) : Prop :=
  s.issues.Pairwise (fun a b => a.id ≠ b.id) ∧
  (∀ i ∈ s.issues, i.id < s.nextId ∧ (scopeOf s.scopes i.scopeId).isSome) ∧
  (∀ sc ∈ s.scopes, sc.id < s.nextId)

/-- The link rows stored for an issue. -/
def linksOf (s : Store) (id : Nat) : List Link :=
  s.links.filter (fun l => l.issueId == id)

/-! ## List helper lemmas -/

/-- Helper: mapping before filtering counts the same elements as filtering
by the composed predicate. -/
theorem length_filter_map (l : List α) (f : α → α) (p : α → Bool) :
    ((l.map f).filter p).length = (l.filter (fun x => p (f x))).length := by
  induction l with
  | nil => rfl
  | cons a t ih =>
      simp only [List.map_cons, List.filter_cons]
      cases hp : p (f a) <;> simp [hp, ih]

/-- Helper: a pointwise implication between predicates on the members of a
list bounds the count of one by the count of the other. -/
theorem length_filter_le_of_imp (l : List α) (p q : α → Bool)
    (h : ∀ x ∈ l, q x = true → p x = true) :
    (l.filter q).length ≤ (l.filter p).length := by
  induction l with
  | nil => exact Nat.le_refl _
  | cons a t ih =>
      have ht : ∀ x ∈ t, q x = true → p x = true := fun x hx => h x (by simp [hx])
      simp only [List.filter_cons]
      cases hq : q a
      · cases hp : p a <;> simp [ih ht, Nat.le_succ_of_le]
      · have hpa : p a = true := h a (by simp) hq
        simp [hpa, ih ht]

/-- Helper: `find?` commutes with a map that preserves the predicate on the
members of the list. -/
theorem find?_map_of_pres (l : List α) (f : α → α) (p : α → Bool)
    (h : ∀ x ∈ l, p (f x) = p x) :
    (l.map f).find? p = (l.find? p).map f := by
  induction l with
  | nil => rfl
  | cons a t ih =>
      have ha : p (f a) = p a := h a (by simp)
      have ht : ∀ x ∈ t, p (f x) = p x := fun x hx => h x (by simp [hx])
      simp only [List.map_cons, List.find?_cons]
      cases hp : p a
      · simpa [ha, hp] using ih ht
      · simp [ha, hp]

/-- Helper: a map that fixes every member of a list is the identity. -/
theorem map_eq_self_of_mem (l : List α) (f : α → α)
    (h : ∀ x ∈ l, f x = x) : l.map f = l := by
  induction l with
  | nil => rfl
  | cons a t ih =>
      have ht : ∀ x ∈ t, f x = x := fun x hx => h x (by simp [hx])
      simp [h a (by simp), ih ht]

/-- Helper: with pairwise-distinct ids, two members with the same id are the
same issue. -/
theorem issue_eq_of_id_eq {l : List Issue}
    (hp : l.Pairwise (fun a b => a.id ≠ b.id)) {a b : Issue}
    (ha : a ∈ l) (hb : b ∈ l) (h : a.id = b.id) : a = b := by
  induction l with
  | nil => cases ha
  | cons x t ih =>
      rcases List.pairwise_cons.mp hp with ⟨hx, ht⟩
      rcases List.mem_cons.mp ha with rfl | ha2
      · rcases List.mem_cons.mp hb with rfl | hb2
        · rfl
        · exact absurd h (hx _ hb2)
      · rcases List.mem_cons.mp hb with rfl | hb2
        · exact absurd h.symm (hx _ ha2)
        · exact ih ht ha2 hb2

/-- Helper: `find?` over an appended list when the first part has a hit. -/
theorem find?_append_some {l₁ l₂ : List α} {p : α → Bool} {a : α}
    (h : l₁.find? p = some a) : (l₁ ++ l₂).find? p = some a := by
  rw [List.find?_append, h]; rfl

/-- Helper: `find?` over an appended list when the first part has no hit. -/
theorem find?_append_none {l₁ l₂ : List α} {p : α → Bool}
    (h : l₁.find? p = none) : (l₁ ++ l₂).find? p = l₂.find? p := by
  rw [List.find?_append, h]; rfl

/-! ## Structural lemmas about the repository operations -/

namespace issueRepository

@[simp]
theorem applyUpdates_id (orig : Issue) (req : UpdateIssueRequest) (now : Nat) :
    (applyUpdates orig req now).id = orig.id := rfl

@[simp]
theorem applyUpdates_scopeId (orig : Issue) (req : UpdateIssueRequest) (now : Nat) :
    (applyUpdates orig req now).scopeId = orig.scopeId := rfl

@[simp]
theorem applyUpdates_nspace (orig : Issue) (req : UpdateIssueRequest) (now : Nat) :
    (applyUpdates orig req now).nspace = orig.nspace := rfl

end issueRepository

/-- Helper: appending a scope row does not change lookups that already
succeed. -/
theorem scopeOf_append_of_isSome (scopes : List IssueScope) (sc0 : IssueScope)
    (sid : Nat) (h : (scopeOf scopes sid).isSome) :
    scopeOf (scopes ++ [sc0]) sid = scopeOf scopes sid := by
  obtain ⟨x, hx⟩ := Option.isSome_iff_exists.mp h
  rw [hx]
  exact find?_append_some hx

/-- Helper: replacing the issue row with a given id by a row with the same
id and scope preserves well-formedness (links may change freely). -/
theorem WF_update_map (s : Store) (hwf : s.WF) (id0 : Nat) (g : Issue)
    (nl : List Link) (hgid : g.id = id0)
    (hgsc : (scopeOf s.scopes g.scopeId).isSome) :
    Store.WF { s with
      issues := s.issues.map fun i => if i.id == id0 then g else i,
      links := nl } := by
  obtain ⟨hpair, hmem, hscb⟩ := hwf
  have hfid : ∀ i : Issue, (if i.id == id0 then g else i).id = i.id := by
    intro i
    by_cases h : i.id == id0
    · simp only [h, if_true, hgid]
      exact (beq_iff_eq.mp h).symm
    · simp [h]
  refine ⟨?_, ?_, ?_⟩
  · rw [List.pairwise_map]
    refine hpair.imp ?_
    intro a b hab
    show (if a.id == id0 then g else a).id ≠ (if b.id == id0 then g else b).id
    rw [hfid, hfid]
    exact hab
  · intro i2 hi2
    rcases List.mem_map.mp hi2 with ⟨i, hi, rfl⟩
    refine ⟨by rw [hfid]; exact (hmem i hi).1, ?_⟩
    by_cases h : i.id == id0
    · simpa [h] using hgsc
    · simpa [h] using (hmem i hi).2
  · exact hscb

/-- Helper: inserting a fresh issue row with a fresh scope row preserves
well-formedness. -/
theorem WF_insert (s : Store) (hwf : s.WF) (n : Issue) (sc : IssueScope)
    (nl : List Link) (hnid : n.id = s.nextId + 1) (hnsc : n.scopeId = s.nextId)
    (hscid : sc.id = s.nextId) :
    Store.WF { s with
      issues := s.issues ++ [n], scopes := s.scopes ++ [sc],
      links := nl, nextId := s.nextId + 2 } := by
  obtain ⟨hpair, hmem, hscb⟩ := hwf
  have hnone : scopeOf s.scopes s.nextId = none := by
    apply List.find?_eq_none.mpr
    intro x hx
    simp [Nat.ne_of_lt (hscb x hx)]
  refine ⟨?_, ?_, ?_⟩
  · rw [List.pairwise_append]
    refine ⟨hpair, List.pairwise_singleton _ _, ?_⟩
    intro a ha b hb
    rw [List.mem_singleton.mp hb, hnid]
    have := (hmem a ha).1
    omega
  · intro i hi
    rcases List.mem_append.mp hi with hi | hi
    · have h1 := (hmem i hi).1
      refine ⟨show i.id < s.nextId + 2 by omega, ?_⟩
      show (scopeOf (s.scopes ++ [sc]) i.scopeId).isSome
      rw [scopeOf_append_of_isSome _ _ _ (hmem i hi).2]
      exact (hmem i hi).2
    · rw [List.mem_singleton.mp hi]
      refine ⟨show n.id < s.nextId + 2 by omega, ?_⟩
      show (scopeOf (s.scopes ++ [sc]) n.scopeId).isSome
      rw [hnsc, scopeOf, find?_append_none hnone, List.find?_singleton]
      simp [hscid]
  · intro x hx
    rcases List.mem_append.mp hx with hx | hx
    · have := hscb x hx
      show x.id < s.nextId + 2
      omega
    · rw [List.mem_singleton.mp hx]
      show sc.id < s.nextId + 2
      omega

namespace issueRepository

@[simp]
theorem applyUpdates_title (o : Issue) (r : UpdateIssueRequest) (n : Nat) :
    (applyUpdates o r n).title = r.title.getD o.title := rfl

@[simp]
theorem applyUpdates_description (o : Issue) (r : UpdateIssueRequest) (n : Nat) :
    (applyUpdates o r n).description = r.description.getD o.description := rfl

@[simp]
theorem applyUpdates_severity (o : Issue) (r : UpdateIssueRequest) (n : Nat) :
    (applyUpdates o r n).severity = r.severity.getD o.severity := rfl

@[simp]
theorem applyUpdates_issueType (o : Issue) (r : UpdateIssueRequest) (n : Nat) :
    (applyUpdates o r n).issueType = r.issueType.getD o.issueType := rfl

@[simp]
theorem applyUpdates_state (o : Issue) (r : UpdateIssueRequest) (n : Nat) :
    (applyUpdates o r n).state = r.state.getD o.state := rfl

@[simp]
theorem applyUpdates_updatedAt (o : Issue) (r : UpdateIssueRequest) (n : Nat) :
    (applyUpdates o r n).updatedAt = n := rfl

@[simp]
theorem applyUpdates_detectedAt (o : Issue) (r : UpdateIssueRequest) (n : Nat) :
    (applyUpdates o r n).detectedAt = o.detectedAt := rfl

@[simp]
theorem applyUpdates_createdAt (o : Issue) (r : UpdateIssueRequest) (n : Nat) :
    (applyUpdates o r n).createdAt = o.createdAt := rfl

@[simp]
theorem dupUpdateReq_title (req : CreateIssueRequest) :
    (dupUpdateReq req).title = some req.title := rfl

@[simp]
theorem dupUpdateReq_description (req : CreateIssueRequest) :
    (dupUpdateReq req).description = some req.description := rfl

@[simp]
theorem dupUpdateReq_severity (req : CreateIssueRequest) :
    (dupUpdateReq req).severity = some req.severity := rfl

@[simp]
theorem dupUpdateReq_issueType (req : CreateIssueRequest) :
    (dupUpdateReq req).issueType = some req.issueType := rfl

@[simp]
theorem dupUpdateReq_state (req : CreateIssueRequest) :
    (dupUpdateReq req).state =
      if req.state == "" then none else some req.state := rfl

@[simp]
theorem dupUpdateReq_resolvedAt (req : CreateIssueRequest) :
    (dupUpdateReq req).resolvedAt = none := rfl

@[simp]
theorem dupUpdateReq_links (req : CreateIssueRequest) :
    (dupUpdateReq req).links = none := rfl

/-- Shape of `Create` on the duplicate path, given the row the inner
`FindByID` fetches. -/
theorem Create_dup_eq (s : Store) (req : CreateIssueRequest) (now : Nat)
    (e : Issue) (hdup : CheckDuplicate s req = some e) (orig : Issue)
    (horig : s.issues.find? (fun i => i.id == e.id) = some orig) :
    Create s req now = .ok (e.id,
      { s with issues := s.issues.map fun i =>
          if i.id == e.id then applyUpdates orig (dupUpdateReq req) now else i }) := by
  simp only [Create, hdup, Update, FindByID, horig, dupUpdateReq_links]

/-- Shape of `Create` on the no-duplicate path. -/
theorem Create_new_eq (s : Store) (req : CreateIssueRequest) (now : Nat)
    (hdup : CheckDuplicate s req = none) :
    Create s req now = .ok (s.nextId + 1,
      { s with
        issues := s.issues ++ [newIssueRow s req now]
        scopes := s.scopes ++ [newScopeRow s req]
        links := s.links ++ req.links.map fun lr =>
          { title := lr.title, url := lr.url, issueId := s.nextId + 1 }
        nextId := s.nextId + 2 }) := by
  unfold Create
  rw [hdup]

end issueRepository

/-- Helper: looking up the freshly appended scope row. -/
theorem scopeOf_append_fresh (scopes : List IssueScope) (sc : IssueScope)
    (m : Nat) (hb : ∀ x ∈ scopes, x.id < m) (hscid : sc.id = m) :
    scopeOf (scopes ++ [sc]) m = some sc := by
  have hnone : scopeOf scopes m = none := by
    apply List.find?_eq_none.mpr
    intro x hx
    simp [Nat.ne_of_lt (hb x hx)]
  rw [scopeOf, find?_append_none hnone, List.find?_singleton]
  simp [hscid]

/-- Helper: the protected-key predicate ignores an appended scope row for
issues whose scope lookup already succeeds. -/
theorem dupKeyMatches_append (scopes : List IssueScope) (sc0 : IssueScope)
    (ns t rt rn : String) (i : Issue)
    (h : (scopeOf scopes i.scopeId).isSome) :
    dupKeyMatches (scopes ++ [sc0]) ns t rt rn i =
      dupKeyMatches scopes ns t rt rn i := by
  unfold dupKeyMatches
  rw [scopeOf_append_of_isSome _ _ _ h]

/-- Helper: the duplicate predicate ignores an appended scope row for issues
whose scope lookup already succeeds. -/
theorem duplicateMatches_append (scopes : List IssueScope) (sc0 : IssueScope)
    (req : CreateIssueRequest) (i : Issue)
    (h : (scopeOf scopes i.scopeId).isSome) :
    issueRepository.duplicateMatches (scopes ++ [sc0]) req i =
      issueRepository.duplicateMatches scopes req i := by
  unfold issueRepository.duplicateMatches
  rw [scopeOf_append_of_isSome _ _ _ h]

namespace issueRepository

@[simp]
theorem newIssueRow_id (s : Store) (req : CreateIssueRequest) (now : Nat) :
    (newIssueRow s req now).id = s.nextId + 1 := rfl

@[simp]
theorem newIssueRow_nspace (s : Store) (req : CreateIssueRequest) (now : Nat) :
    (newIssueRow s req now).nspace = req.nspace := rfl

@[simp]
theorem newIssueRow_issueType (s : Store) (req : CreateIssueRequest) (now : Nat) :
    (newIssueRow s req now).issueType = req.issueType := rfl

@[simp]
theorem newIssueRow_state (s : Store) (req : CreateIssueRequest) (now : Nat) :
    (newIssueRow s req now).state =
      (if req.state == "" then IssueStateActive else req.state) := rfl

@[simp]
theorem newIssueRow_scopeId (s : Store) (req : CreateIssueRequest) (now : Nat) :
    (newIssueRow s req now).scopeId = s.nextId := rfl

@[simp]
theorem newIssueRow_resolvedAt (s : Store) (req : CreateIssueRequest) (now : Nat) :
    (newIssueRow s req now).resolvedAt = none := rfl

@[simp]
theorem newIssueRow_title (s : Store) (req : CreateIssueRequest) (now : Nat) :
    (newIssueRow s req now).title = req.title := rfl

@[simp]
theorem newIssueRow_description (s : Store) (req : CreateIssueRequest) (now : Nat) :
    (newIssueRow s req now).description = req.description := rfl

@[simp]
theorem newIssueRow_severity (s : Store) (req : CreateIssueRequest) (now : Nat) :
    (newIssueRow s req now).severity = req.severity := rfl

@[simp]
theorem newIssueRow_detectedAt (s : Store) (req : CreateIssueRequest) (now : Nat) :
    (newIssueRow s req now).detectedAt = now := rfl

@[simp]
theorem newIssueRow_createdAt (s : Store) (req : CreateIssueRequest) (now : Nat) :
    (newIssueRow s req now).createdAt = now := rfl

@[simp]
theorem newIssueRow_updatedAt (s : Store) (req : CreateIssueRequest) (now : Nat) :
    (newIssueRow s req now).updatedAt = now := rfl

@[simp]
theorem newScopeRow_id (s : Store) (req : CreateIssueRequest) :
    (newScopeRow s req).id = s.nextId := rfl

@[simp]
theorem newScopeRow_resourceType (s : Store) (req : CreateIssueRequest) :
    (newScopeRow s req).resourceType = req.scope.resourceType := rfl

@[simp]
theorem newScopeRow_resourceName (s : Store) (req : CreateIssueRequest) :
    (newScopeRow s req).resourceName = req.scope.resourceName := rfl

@[simp]
theorem newScopeRow_resourceNamespace (s : Store) (req : CreateIssueRequest) :
    (newScopeRow s req).resourceNamespace =
      (if req.scope.resourceNamespace == "" then req.nspace
       else req.scope.resourceNamespace) := rfl

end issueRepository

/-- Helper: the protected-key predicate at the request's own key is exactly
the duplicate-lookup predicate. -/
theorem dupKeyMatches_eq_duplicateMatches (scopes : List IssueScope)
    (req : CreateIssueRequest) (i : Issue) :
    dupKeyMatches scopes req.nspace req.issueType req.scope.resourceType
      req.scope.resourceName i =
      issueRepository.duplicateMatches scopes req i := rfl

/-- Helper: the duplicate predicate with the scope lookup resolved. -/
theorem duplicateMatches_eq_of_scope (scopes : List IssueScope)
    (req : CreateIssueRequest) (i : Issue) (sc : IssueScope)
    (h : scopeOf scopes i.scopeId = some sc) :
    issueRepository.duplicateMatches scopes req i =
      (i.nspace == req.nspace && i.issueType == req.issueType &&
        i.state == IssueStateActive &&
        (sc.resourceType == req.scope.resourceType &&
         sc.resourceName == req.scope.resourceName &&
         sc.resourceNamespace == req.nspace)) := by
  unfold issueRepository.duplicateMatches
  rw [h]

/-- Helper: one create-or-update step preserves well-formedness and the
protected-key uniqueness invariant. -/
theorem createStep_good (s : Store) (req : CreateIssueRequest) (now : Nat)
    (hwf : s.WF) (hinv : ActiveUnique s) :
    (applyCreate s req now).WF ∧ ActiveUnique (applyCreate s req now) := by
  cases hdup : issueRepository.CheckDuplicate s req with
  | some e =>
      have he_mem : e ∈ s.issues := List.mem_of_find?_eq_some hdup
      have he_p : issueRepository.duplicateMatches s.scopes req e = true :=
        List.find?_some hdup
      have hsome : (s.issues.find? fun i => i.id == e.id).isSome :=
        List.find?_isSome.mpr ⟨e, he_mem, by simp⟩
      obtain ⟨orig, horig⟩ := Option.isSome_iff_exists.mp hsome
      have horigp := List.find?_some horig
      have horig_eq : orig = e :=
        issue_eq_of_id_eq hwf.1 (List.mem_of_find?_eq_some horig) he_mem
          (beq_iff_eq.mp horigp)
      subst horig_eq
      have happ : applyCreate s req now =
          { s with issues := s.issues.map fun i =>
              if i.id == orig.id then
                issueRepository.applyUpdates orig (issueRepository.dupUpdateReq req) now
              else i } := by
        unfold applyCreate
        rw [issueRepository.Create_dup_eq s req now orig hdup orig horig]
      rw [happ]
      refine ⟨?_, ?_⟩
      · exact WF_update_map s hwf orig.id _ s.links rfl
          (by rw [issueRepository.applyUpdates_scopeId]; exact (hwf.2.1 orig he_mem).2)
      · intro ns t rt rn
        show ((s.issues.map fun i =>
            if i.id == orig.id then
              issueRepository.applyUpdates orig (issueRepository.dupUpdateReq req) now
            else i).filter (dupKeyMatches s.scopes ns t rt rn)).length ≤ 1
        rw [length_filter_map]
        refine le_trans (length_filter_le_of_imp s.issues _ _ ?_) (hinv ns t rt rn)
        intro x hx hq
        by_cases hxid : (x.id == orig.id) = true
        · have hxe : x = orig :=
            issue_eq_of_id_eq hwf.1 hx he_mem (beq_iff_eq.mp hxid)
          subst hxe
          rw [if_pos hxid] at hq
          simp only [issueRepository.duplicateMatches, Bool.and_eq_true,
            beq_iff_eq] at he_p
          obtain ⟨⟨⟨hens, hety⟩, hest⟩, hesc⟩ := he_p
          simp only [dupKeyMatches, issueRepository.applyUpdates_nspace,
            issueRepository.applyUpdates_issueType,
            issueRepository.applyUpdates_state,
            issueRepository.applyUpdates_scopeId,
            issueRepository.dupUpdateReq_issueType, Option.getD_some,
            Bool.and_eq_true, beq_iff_eq] at hq
          obtain ⟨⟨⟨hqns, hqty⟩, _⟩, hqsc⟩ := hq
          simp only [dupKeyMatches, Bool.and_eq_true, beq_iff_eq]
          exact ⟨⟨⟨hqns, by rw [hety, hqty]⟩, hest⟩, hqsc⟩
        · rw [if_neg hxid] at hq
          exact hq
  | none =>
      have happ : applyCreate s req now =
          { s with
            issues := s.issues ++ [issueRepository.newIssueRow s req now]
            scopes := s.scopes ++ [issueRepository.newScopeRow s req]
            links := s.links ++ req.links.map fun lr =>
              { title := lr.title, url := lr.url, issueId := s.nextId + 1 }
            nextId := s.nextId + 2 } := by
        unfold applyCreate
        rw [issueRepository.Create_new_eq s req now hdup]
      rw [happ]
      refine ⟨?_, ?_⟩
      · exact WF_insert s hwf _ _ _ rfl rfl rfl
      · intro ns t rt rn
        have hnodup : ∀ x ∈ s.issues,
            ¬ issueRepository.duplicateMatches s.scopes req x = true :=
          List.find?_eq_none.mp hdup
        show ((s.issues ++ [issueRepository.newIssueRow s req now]).filter
            (dupKeyMatches (s.scopes ++ [issueRepository.newScopeRow s req])
              ns t rt rn)).length ≤ 1
        rw [List.filter_append, List.length_append]
        have hold : s.issues.filter
            (dupKeyMatches (s.scopes ++ [issueRepository.newScopeRow s req]) ns t rt rn) =
            s.issues.filter (dupKeyMatches s.scopes ns t rt rn) :=
          List.filter_congr (fun x hx =>
            dupKeyMatches_append s.scopes _ ns t rt rn x ((hwf.2.1 x hx).2))
        rw [hold]
        have hsc_lookup : scopeOf (s.scopes ++ [issueRepository.newScopeRow s req])
            (issueRepository.newIssueRow s req now).scopeId =
            some (issueRepository.newScopeRow s req) := by
          rw [issueRepository.newIssueRow_scopeId]
          exact scopeOf_append_fresh s.scopes _ s.nextId hwf.2.2 rfl
        cases hpn : dupKeyMatches (s.scopes ++ [issueRepository.newScopeRow s req])
            ns t rt rn (issueRepository.newIssueRow s req now) with
        | false =>
            simp only [List.filter_cons, List.filter_nil, hpn, if_false,
              Bool.false_eq_true, List.length_nil]
            simpa using hinv ns t rt rn
        | true =>
            simp only [dupKeyMatches, hsc_lookup, issueRepository.newIssueRow_nspace,
              issueRepository.newIssueRow_issueType, issueRepository.newIssueRow_state,
              issueRepository.newScopeRow_resourceType,
              issueRepository.newScopeRow_resourceName,
              issueRepository.newScopeRow_resourceNamespace,
              Bool.and_eq_true, beq_iff_eq] at hpn
            obtain ⟨⟨⟨h1, h2⟩, _⟩, ⟨h4, h5⟩, _⟩ := hpn
            subst h1
            subst h2
            subst h4
            subst h5
            have hzero : s.issues.filter (dupKeyMatches s.scopes req.nspace
                req.issueType req.scope.resourceType req.scope.resourceName) = [] := by
              apply List.filter_eq_nil_iff.mpr
              intro x hx
              rw [dupKeyMatches_eq_duplicateMatches]
              exact hnodup x hx
            rw [hzero]
            have hle := List.length_filter_le
              (dupKeyMatches (s.scopes ++ [issueRepository.newScopeRow s req])
                req.nspace req.issueType req.scope.resourceType
                req.scope.resourceName)
              [issueRepository.newIssueRow s req now]
            simp only [List.length_nil, List.length_singleton] at hle ⊢
            omega

/-- Helper: a whole sequence of create-or-update steps preserves
well-formedness and the uniqueness invariant. -/
theorem applyCreates_good (s : Store) (ops : List (CreateIssueRequest × Nat))
    (h : s.WF ∧ ActiveUnique s) :
    (applyCreates s ops).WF ∧ ActiveUnique (applyCreates s ops) := by
  induction ops generalizing s with
  | nil => exact h
  | cons op rest ih =>
      exact ih (applyCreate s op.1 op.2) (createStep_good s op.1 op.2 h.1 h.2)

/-- Helper: the empty store is well-formed. -/
theorem emptyStore_WF : emptyStore.WF := by
  refine ⟨?_, ?_, ?_⟩ <;> simp [emptyStore]

/-- Helper: the empty store satisfies the uniqueness invariant. -/
theorem emptyStore_activeUnique : ActiveUnique emptyStore := by
  intro ns t rt rn
  simp [activeKeyCount, emptyStore]

/-! ## Concrete requests used in witnesses and counterexamples -/

/-- A simple creation request: namespace "a", issue type "pipeline", scope
("c", "n") with empty scope resource namespace. -/
def exReq0 : CreateIssueRequest :=
  { title := "t", description := "d", severity := "major",
    issueType := "pipeline", state := "", nspace := "a",
    scope := { resourceType := "c", resourceName := "n",
               resourceNamespace := "" },
    links := [] }

/-- As `exReq0` but with an explicit scope resource namespace "o" different
from the issue namespace "a". -/
def exReqOther : CreateIssueRequest :=
  { exReq0 with
    scope := { resourceType := "c", resourceName := "n",
               resourceNamespace := "o" } }

/-- As `exReq0` but explicitly requesting the resolved state. -/
def exReqResolved : CreateIssueRequest :=
  { exReq0 with state := IssueStateResolved }

/-- As `exReq0` with one link. -/
def reqLinkOld : CreateIssueRequest :=
  { exReq0 with links := [{ title := "lo", url := "uo" }] }

/-- As `exReq0` with a different link. -/
def reqLinkNew : CreateIssueRequest :=
  { exReq0 with links := [{ title := "ln", url := "un" }] }

/-! ## C1 -/

/-- C1, counterexample to the claim as stated: two identical create
requests whose explicit scope resource namespace ("o") differs from the
issue namespace ("a"). The duplicate lookup compares the stored scope
resource namespace against the request namespace, misses both times, and a
second active issue with the same (namespace, issue type, scope resource
type, scope resource name) combination is inserted: the count reaches 2. -/
theorem create_unique_active_counterexample :
    ¬ activeCount4 (applyCreates emptyStore [(exReqOther, 0), (exReqOther, 1)])
        "a" "pipeline" "c" "n" ≤ 1 := by decide

/-- C1 (amended): from a well-formed store satisfying the uniqueness
invariant on the protected key — at most one active issue per (namespace,
issue type, scope resource type, scope resource name) among issues whose
scope resource namespace equals the issue namespace — every sequence of
repository `Create` (create-or-update) operations preserves the invariant:
`Create` performs the duplicate lookup first and updates the existing
active issue instead of inserting a second one. -/
theorem create_sequences_preserve_unique_active (s : Store)
    (ops : List (CreateIssueRequest × Nat)) (hwf : s.WF)
    (hinv : ActiveUnique s) : ActiveUnique (applyCreates s ops) :=
  (applyCreates_good s ops ⟨hwf, hinv⟩).2

/-- C1, witness: the amended theorem applied to the empty store and two
concrete create operations. -/
theorem create_sequences_preserve_unique_active_witness :
    activeKeyCount (applyCreates emptyStore [(exReq0, 0), (exReq0, 1)])
      "a" "pipeline" "c" "n" ≤ 1 :=
  create_sequences_preserve_unique_active emptyStore [(exReq0, 0), (exReq0, 1)]
    emptyStore_WF emptyStore_activeUnique "a" "pipeline" "c" "n"

/-! ## C2 -/

attribute [ext] Issue

namespace issueRepository

@[simp]
theorem applyUpdates_resolvedAt (o : Issue) (r : UpdateIssueRequest) (n : Nat) :
    (applyUpdates o r n).resolvedAt =
      (match r.resolvedAt with
       | some t => some t
       | none =>
           match r.state with
           | some st =>
               if st == IssueStateResolved && !(o.state == IssueStateResolved)
               then some n else o.resolvedAt
           | none => o.resolvedAt) := rfl

end issueRepository

/-- Helper: `getD` twice with the same option collapses. -/
theorem option_getD_getD (o : Option α) (x : α) :
    o.getD (o.getD x) = o.getD x := by
  cases o <;> rfl

/-- Helper: applying the same update twice in a row is the same as applying
it once (field by field; the resolved-at clause is stable because after the
first application the state already equals the patched state). -/
theorem applyUpdates_idem (o : Issue) (u : UpdateIssueRequest) (now : Nat) :
    issueRepository.applyUpdates (issueRepository.applyUpdates o u now) u now =
      issueRepository.applyUpdates o u now := by
  ext
  case id => simp
  case title => simp [option_getD_getD]
  case description => simp [option_getD_getD]
  case severity => simp [option_getD_getD]
  case issueType => simp [option_getD_getD]
  case state => simp [option_getD_getD]
  case detectedAt => simp
  case nspace => simp
  case scopeId => simp
  case createdAt => simp
  case updatedAt => simp
  case resolvedAt =>
      cases hra : u.resolvedAt with
      | some t => simp [hra]
      | none =>
          cases hst : u.state with
          | none => simp [hra, hst]
          | some st =>
              cases hres : st == IssueStateResolved <;>
                simp [hra, hst, hres]

/-- C2 (amended): on a well-formed store, for a request whose state is not
resolved (absent or active) and whose scope resource namespace is absent or
equal to the request namespace, applying the create-or-update operation
(repository `Create`) twice with the identical request and timestamp yields
the same issue id both times, creates no second issue row, and the store
after the second call equals the store after the first call. -/
theorem create_or_update_idempotent (s : Store) (req : CreateIssueRequest)
    (now : Nat) (hwf : s.WF)
    (hstate : req.state = "" ∨ req.state = IssueStateActive)
    (hrns : req.scope.resourceNamespace = "" ∨
      req.scope.resourceNamespace = req.nspace) :
    ∃ r1 s1, issueRepository.Create s req now = .ok (r1, s1) ∧
      issueRepository.Create s1 req now = .ok (r1, s1) := by
  cases hdup : issueRepository.CheckDuplicate s req with
  | some e =>
      have he_mem : e ∈ s.issues := List.mem_of_find?_eq_some hdup
      have he_p := List.find?_some hdup
      have hsome : (s.issues.find? fun i => i.id == e.id).isSome :=
        List.find?_isSome.mpr ⟨e, he_mem, by simp⟩
      obtain ⟨orig, horig⟩ := Option.isSome_iff_exists.mp hsome
      have horigp := List.find?_some horig
      have horig_eq : orig = e :=
        issue_eq_of_id_eq hwf.1 (List.mem_of_find?_eq_some horig) he_mem
          (beq_iff_eq.mp horigp)
      subst horig_eq
      have h1 := issueRepository.Create_dup_eq s req now orig hdup orig horig
      have hgstate : (issueRepository.applyUpdates orig
          (issueRepository.dupUpdateReq req) now).state = IssueStateActive := by
        rw [issueRepository.applyUpdates_state, issueRepository.dupUpdateReq_state]
        rcases hstate with h | h
        · rw [h]
          show orig.state = IssueStateActive
          simp only [issueRepository.duplicateMatches, Bool.and_eq_true,
            beq_iff_eq] at he_p
          exact he_p.1.2
        · rw [h]
          rfl
      have hdupg : issueRepository.duplicateMatches s.scopes req
          (issueRepository.applyUpdates orig
            (issueRepository.dupUpdateReq req) now) = true := by
        simp only [issueRepository.duplicateMatches, Bool.and_eq_true,
          beq_iff_eq] at he_p ⊢
        refine ⟨⟨⟨?_, ?_⟩, ?_⟩, ?_⟩
        · simpa using he_p.1.1.1
        · simp
        · simpa using hgstate
        · simpa using he_p.2
      have hfp : ∀ x ∈ s.issues,
          issueRepository.duplicateMatches s.scopes req
            (if x.id == orig.id then
              issueRepository.applyUpdates orig
                (issueRepository.dupUpdateReq req) now
            else x) =
          issueRepository.duplicateMatches s.scopes req x := by
        intro x hx
        by_cases hid : (x.id == orig.id) = true
        · have hxe : x = orig :=
            issue_eq_of_id_eq hwf.1 hx he_mem (beq_iff_eq.mp hid)
          rw [if_pos hid, hdupg, hxe, List.find?_some hdup]
        · simp only [hid, Bool.false_eq_true, if_false]
      have hidp : ∀ x ∈ s.issues,
          ((if x.id == orig.id then
              issueRepository.applyUpdates orig
                (issueRepository.dupUpdateReq req) now
            else x).id == orig.id) = (x.id == orig.id) := by
        intro x hx
        by_cases hid : (x.id == orig.id) = true
        · rw [if_pos hid, issueRepository.applyUpdates_id, hid]
          exact beq_self_eq_true _
        · simp only [hid, Bool.false_eq_true, if_false]
      have hfind2 : (s.issues.map fun x =>
          if x.id == orig.id then
            issueRepository.applyUpdates orig
              (issueRepository.dupUpdateReq req) now
          else x).find? (issueRepository.duplicateMatches s.scopes req) =
          some (issueRepository.applyUpdates orig
            (issueRepository.dupUpdateReq req) now) := by
        have hdupl : s.issues.find?
            (issueRepository.duplicateMatches s.scopes req) = some orig := hdup
        rw [find?_map_of_pres _ _ _ hfp, hdupl, Option.map_some']
        congr 1
        rw [if_pos (beq_self_eq_true orig.id)]
      have hfind2i : (s.issues.map fun x =>
          if x.id == orig.id then
            issueRepository.applyUpdates orig
              (issueRepository.dupUpdateReq req) now
          else x).find? (fun i => i.id == orig.id) =
          some (issueRepository.applyUpdates orig
            (issueRepository.dupUpdateReq req) now) := by
        rw [find?_map_of_pres _ _ _ hidp, horig, Option.map_some']
        congr 1
        rw [if_pos (beq_self_eq_true orig.id)]
      have h2 := issueRepository.Create_dup_eq
        { s with issues := s.issues.map fun x =>
            (if x.id == orig.id then
              issueRepository.applyUpdates orig
                (issueRepository.dupUpdateReq req) now
            else x) }
        req now
        (issueRepository.applyUpdates orig
          (issueRepository.dupUpdateReq req) now)
        hfind2
        (issueRepository.applyUpdates orig
          (issueRepository.dupUpdateReq req) now)
        hfind2i
      have hmap2 : ((s.issues.map fun x =>
          if x.id == orig.id then
            issueRepository.applyUpdates orig
              (issueRepository.dupUpdateReq req) now
          else x).map fun i =>
            if i.id == (issueRepository.applyUpdates orig
                (issueRepository.dupUpdateReq req) now).id then
              issueRepository.applyUpdates
                (issueRepository.applyUpdates orig
                  (issueRepository.dupUpdateReq req) now)
                (issueRepository.dupUpdateReq req) now
            else i) =
          (s.issues.map fun x =>
            if x.id == orig.id then
              issueRepository.applyUpdates orig
                (issueRepository.dupUpdateReq req) now
            else x) := by
        apply map_eq_self_of_mem
        intro y hy
        rcases List.mem_map.mp hy with ⟨x, hx, rfl⟩
        by_cases hid : (x.id == orig.id) = true
        · rw [if_pos hid]
          have hgg : ((issueRepository.applyUpdates orig
              (issueRepository.dupUpdateReq req) now).id ==
              (issueRepository.applyUpdates orig
                (issueRepository.dupUpdateReq req) now).id) = true :=
            beq_self_eq_true _
          rw [if_pos hgg]
          exact applyUpdates_idem orig _ now
        · have hidb : (x.id == orig.id) = false := by
            simpa using hid
          have hfx : (if (x.id == orig.id) = true then
              issueRepository.applyUpdates orig
                (issueRepository.dupUpdateReq req) now
            else x) = x := by simp [hidb]
          rw [hfx]
          have hng : ¬ ((x.id == (issueRepository.applyUpdates orig
              (issueRepository.dupUpdateReq req) now).id) = true) := by
            rw [issueRepository.applyUpdates_id, hidb]
            simp
          rw [if_neg hng]
      refine ⟨orig.id,
        { s with issues := s.issues.map fun x =>
            (if x.id == orig.id then
              issueRepository.applyUpdates orig
                (issueRepository.dupUpdateReq req) now
            else x) },
        h1, ?_⟩
      rw [h2, issueRepository.applyUpdates_id]
      exact congrArg (fun l : List Issue =>
        (Except.ok (orig.id, Store.mk l s.scopes s.links s.relations s.nextId) :
          Except String (Nat × Store))) hmap2
  | none =>
      have h1 := issueRepository.Create_new_eq s req now hdup
      have hBst : (if req.state == "" then IssueStateActive else req.state) =
          IssueStateActive := by
        rcases hstate with h | h <;> rw [h] <;> rfl
      have hBrns : (if req.scope.resourceNamespace == "" then req.nspace
          else req.scope.resourceNamespace) = req.nspace := by
        rcases hrns with h | h <;> rw [h] <;> simp
      have hid_new : ∀ x ∈ s.issues,
          ¬ ((x.id == (issueRepository.newIssueRow s req now).id) = true) := by
        intro x hx
        have hb := (hwf.2.1 x hx).1
        rw [issueRepository.newIssueRow_id, beq_iff_eq]
        omega
      have hold_none : (s.issues.find? (issueRepository.duplicateMatches
          (s.scopes ++ [issueRepository.newScopeRow s req]) req)) = none := by
        apply List.find?_eq_none.mpr
        intro x hx
        rw [duplicateMatches_append s.scopes _ req x ((hwf.2.1 x hx).2)]
        exact List.find?_eq_none.mp hdup x hx
      have hsc_lookup : scopeOf (s.scopes ++ [issueRepository.newScopeRow s req])
          (issueRepository.newIssueRow s req now).scopeId =
          some (issueRepository.newScopeRow s req) := by
        rw [issueRepository.newIssueRow_scopeId]
        exact scopeOf_append_fresh s.scopes _ s.nextId hwf.2.2 rfl
      have hpn : issueRepository.duplicateMatches
          (s.scopes ++ [issueRepository.newScopeRow s req]) req
          (issueRepository.newIssueRow s req now) = true := by
        rw [duplicateMatches_eq_of_scope _ _ _ _ hsc_lookup,
          issueRepository.newIssueRow_nspace,
          issueRepository.newIssueRow_issueType,
          issueRepository.newIssueRow_state, hBst,
          issueRepository.newScopeRow_resourceType,
          issueRepository.newScopeRow_resourceName,
          issueRepository.newScopeRow_resourceNamespace, hBrns]
        simp
      have hdup2 : issueRepository.CheckDuplicate
          { s with
            issues := s.issues ++ [issueRepository.newIssueRow s req now]
            scopes := s.scopes ++ [issueRepository.newScopeRow s req]
            links := s.links ++ req.links.map fun lr =>
              { title := lr.title, url := lr.url, issueId := s.nextId + 1 }
            nextId := s.nextId + 2 } req =
          some (issueRepository.newIssueRow s req now) := by
        show ((s.issues ++ [issueRepository.newIssueRow s req now]).find?
          (issueRepository.duplicateMatches
            (s.scopes ++ [issueRepository.newScopeRow s req]) req)) = _
        rw [find?_append_none hold_none, List.find?_singleton, if_pos hpn]
      have hfind2i : ((s.issues ++ [issueRepository.newIssueRow s req now]).find?
          (fun i => i.id == (issueRepository.newIssueRow s req now).id)) =
          some (issueRepository.newIssueRow s req now) := by
        have hnone : (s.issues.find?
            (fun i => i.id == (issueRepository.newIssueRow s req now).id)) = none := by
          apply List.find?_eq_none.mpr
          intro x hx
          exact hid_new x hx
        rw [find?_append_none hnone, List.find?_singleton,
          if_pos (beq_self_eq_true _)]
      have h2 := issueRepository.Create_dup_eq
        { s with
          issues := s.issues ++ [issueRepository.newIssueRow s req now]
          scopes := s.scopes ++ [issueRepository.newScopeRow s req]
          links := s.links ++ req.links.map fun lr =>
            { title := lr.title, url := lr.url, issueId := s.nextId + 1 }
          nextId := s.nextId + 2 } req now
        (issueRepository.newIssueRow s req now) hdup2
        (issueRepository.newIssueRow s req now) hfind2i
      have hstable : issueRepository.applyUpdates
          (issueRepository.newIssueRow s req now)
          (issueRepository.dupUpdateReq req) now =
          issueRepository.newIssueRow s req now := by
        ext
        case id => simp
        case title => simp
        case description => simp
        case severity => simp
        case issueType => simp
        case state =>
            rcases hstate with h | h <;>
              simp [issueRepository.dupUpdateReq_state, h, hBst,
                IssueStateActive]
        case detectedAt => simp
        case nspace => simp
        case scopeId => simp
        case createdAt => simp [issueRepository.newIssueRow]
        case updatedAt => simp [issueRepository.newIssueRow]
        case resolvedAt =>
            rcases hstate with h | h <;>
              simp [issueRepository.applyUpdates_resolvedAt,
                issueRepository.dupUpdateReq_state,
                issueRepository.dupUpdateReq_resolvedAt, h,
                IssueStateActive, IssueStateResolved]
      have hmap2 : ((s.issues ++ [issueRepository.newIssueRow s req now]).map
          fun i => if i.id == (issueRepository.newIssueRow s req now).id then
            issueRepository.applyUpdates (issueRepository.newIssueRow s req now)
              (issueRepository.dupUpdateReq req) now
          else i) =
          (s.issues ++ [issueRepository.newIssueRow s req now]) := by
        apply map_eq_self_of_mem
        intro y hy
        rcases List.mem_append.mp hy with hy | hy
        · rw [if_neg (hid_new y hy)]
        · rw [List.mem_singleton.mp hy, if_pos (beq_self_eq_true _)]
          exact hstable
      refine ⟨s.nextId + 1,
        { s with
          issues := s.issues ++ [issueRepository.newIssueRow s req now]
          scopes := s.scopes ++ [issueRepository.newScopeRow s req]
          links := s.links ++ req.links.map fun lr =>
            { title := lr.title, url := lr.url, issueId := s.nextId + 1 }
          nextId := s.nextId + 2 },
        h1, ?_⟩
      rw [h2, issueRepository.newIssueRow_id]
      exact congrArg (fun l : List Issue =>
        (Except.ok (s.nextId + 1, Store.mk l
          (s.scopes ++ [issueRepository.newScopeRow s req])
          (s.links ++ req.links.map fun lr =>
            { title := lr.title, url := lr.url, issueId := s.nextId + 1 })
          s.relations (s.nextId + 2)) : Except String (Nat × Store))) hmap2

/-- C2, counterexample to the claim as stated: a request that explicitly
carries state resolved. The first call creates a resolved issue; the second
call's duplicate lookup only matches active issues, misses, and a second
issue row is created — the operation is not idempotent for such requests. -/
theorem create_or_update_idempotent_counterexample :
    (applyCreates emptyStore [(exReqResolved, 0), (exReqResolved, 0)]).issues.length = 2 := by
  decide

/-- C2, witness: the amended idempotence theorem applied to the empty store
and a concrete request. -/
theorem create_or_update_idempotent_witness :
    ∃ r1 s1, issueRepository.Create emptyStore exReq0 0 = .ok (r1, s1) ∧
      issueRepository.Create s1 exReq0 0 = .ok (r1, s1) :=
  create_or_update_idempotent emptyStore exReq0 0 emptyStore_WF
    (Or.inl rfl) (Or.inl rfl)

/-! ## C3 -/

/-- Helper: mapping two pointwise-equal functions over a list. -/
theorem map_congr_mem (l : List α) (f g : α → β)
    (h : ∀ x ∈ l, f x = g x) : l.map f = l.map g :=
  List.map_congr_left h

/-- C3 (amended): a creation request whose (namespace, issue type, scope)
matches an existing active issue creates no new issue row and updates the
existing issue's title, description, severity and issue type in place; the
issue's links however are left untouched — the duplicate path of `Create`
builds its update request without links, so the request's links do not
replace the stored ones. -/
theorem create_on_duplicate_updates_without_links (s : Store)
    (req : CreateIssueRequest) (now : Nat) (e : Issue)
    (hdup : issueRepository.CheckDuplicate s req = some e) :
    ∃ s2, issueRepository.Create s req now = .ok (e.id, s2) ∧
      s2.issues.map (·.id) = s.issues.map (·.id) ∧
      s2.links = s.links ∧
      (∀ i ∈ s2.issues, i.id = e.id →
        i.title = req.title ∧ i.description = req.description ∧
        i.severity = req.severity ∧ i.issueType = req.issueType) := by
  have he_mem : e ∈ s.issues := List.mem_of_find?_eq_some hdup
  have hsome : (s.issues.find? fun i => i.id == e.id).isSome :=
    List.find?_isSome.mpr ⟨e, he_mem, by simp⟩
  obtain ⟨orig, horig⟩ := Option.isSome_iff_exists.mp hsome
  have horigp := List.find?_some horig
  have horigid : orig.id = e.id := beq_iff_eq.mp horigp
  have h1 := issueRepository.Create_dup_eq s req now e hdup orig horig
  refine ⟨_, h1, ?_, rfl, ?_⟩
  · rw [List.map_map]
    apply map_congr_mem
    intro x hx
    by_cases hid : (x.id == e.id) = true
    · show (if (x.id == e.id) = true then _ else x).id = x.id
      rw [if_pos hid, issueRepository.applyUpdates_id, horigid]
      exact (beq_iff_eq.mp hid).symm
    · show (if (x.id == e.id) = true then _ else x).id = x.id
      rw [if_neg hid]
  · intro i hi hieq
    rcases List.mem_map.mp hi with ⟨x, hx, rfl⟩
    by_cases hid : (x.id == e.id) = true
    · rw [if_pos hid]
      refine ⟨?_, ?_, ?_, ?_⟩ <;> simp
    · rw [if_neg hid] at hieq ⊢
      exact absurd (beq_iff_eq.mpr hieq) hid

/-- C3, counterexample to the links part of the claim as stated: an active
issue created with one link, then an identical-key request carrying a
different link. The second request takes the duplicate path, which does not
copy links: the stored link is still the original one, and no second issue
row exists. -/
theorem create_duplicate_links_counterexample :
    linksOf (applyCreates emptyStore [(reqLinkOld, 0), (reqLinkNew, 1)]) 1 =
      [{ title := "lo", url := "uo", issueId := 1 }] ∧
    (applyCreates emptyStore [(reqLinkOld, 0), (reqLinkNew, 1)]).issues.length = 1 := by
  decide

/-- The issue row that creating `exReq0` on the empty store at time 0
produces (used to instantiate witnesses). -/
def c3issue : Issue :=
  { id := 1, title := "t", description := "d", severity := "major",
    issueType := "pipeline", state := IssueStateActive, detectedAt := 0,
    resolvedAt := none, nspace := "a", scopeId := 0, createdAt := 0,
    updatedAt := 0 }

/-- C3, witness: the amended theorem applied to a store holding one active
issue and a duplicate request with a different link. -/
theorem create_on_duplicate_updates_without_links_witness :
    ∃ s2, issueRepository.Create (applyCreates emptyStore [(exReq0, 0)])
        reqLinkNew 1 = .ok (c3issue.id, s2) ∧
      s2.issues.map (·.id) =
        (applyCreates emptyStore [(exReq0, 0)]).issues.map (·.id) ∧
      s2.links = (applyCreates emptyStore [(exReq0, 0)]).links ∧
      (∀ i ∈ s2.issues, i.id = c3issue.id →
        i.title = reqLinkNew.title ∧ i.description = reqLinkNew.description ∧
        i.severity = reqLinkNew.severity ∧ i.issueType = reqLinkNew.issueType) :=
  create_on_duplicate_updates_without_links _ reqLinkNew 1 c3issue (by decide)

/-! ## C4 -/

/-- C4 (confirmed): on a well-formed store, `ResolveByScope` transitions
exactly the issues that were active and matched the namespace and scope
resource type/name to resolved with `resolved_at` and `updated_at` set to
now, deletes no issue (the issue list is a pointwise map), returns the
number of rows transitioned, and returns 0 with the store untouched when no
issue matches. -/
theorem resolveByScope_spec (s : Store) (rt rn ns : String) (now : Nat)
    (hwf : s.WF) :
    issueRepository.ResolveByScope s rt rn ns now =
      (((s.issues.filter
          (issueRepository.resolveMatches s.scopes rt rn ns)).length : Int),
        { s with issues := s.issues.map fun i =>
            (if issueRepository.resolveMatches s.scopes rt rn ns i then
              { i with state := IssueStateResolved, resolvedAt := some now,
                       updatedAt := now }
            else i) }) ∧
    (s.issues.filter (issueRepository.resolveMatches s.scopes rt rn ns) = [] →
      issueRepository.ResolveByScope s rt rn ns now = (0, s)) := by
  have hkey : ∀ i ∈ s.issues,
      (((s.issues.filter (issueRepository.resolveMatches s.scopes rt rn ns)).map
        (·.id)).contains i.id) =
      issueRepository.resolveMatches s.scopes rt rn ns i := by
    intro i hi
    by_cases hp : issueRepository.resolveMatches s.scopes rt rn ns i = true
    · rw [hp]
      have : i.id ∈ (s.issues.filter
          (issueRepository.resolveMatches s.scopes rt rn ns)).map (·.id) :=
        List.mem_map.mpr ⟨i, List.mem_filter.mpr ⟨hi, hp⟩, rfl⟩
      exact List.elem_iff.mpr this
    · have hb : issueRepository.resolveMatches s.scopes rt rn ns i = false := by
        simpa using hp
      rw [hb]
      by_contra hc
      have hc2 : (((s.issues.filter
          (issueRepository.resolveMatches s.scopes rt rn ns)).map
          (·.id)).contains i.id) = true := by
        cases h2 : (((s.issues.filter
            (issueRepository.resolveMatches s.scopes rt rn ns)).map
            (·.id)).contains i.id)
        · exact absurd (h2.symm.trans rfl) (by simpa [h2] using hc)
        · rfl
      have hmem := List.elem_iff.mp hc2
      rcases List.mem_map.mp hmem with ⟨j, hj, hjid⟩
      rcases List.mem_filter.mp hj with ⟨hjmem, hjp⟩
      have : j = i := issue_eq_of_id_eq hwf.1 hjmem hi hjid
      rw [this] at hjp
      exact absurd hjp (by simp [hb])
  constructor
  · unfold issueRepository.ResolveByScope
    by_cases hempty : ((s.issues.filter
        (issueRepository.resolveMatches s.scopes rt rn ns)).map (·.id)).isEmpty = true
    · have hnil : s.issues.filter
          (issueRepository.resolveMatches s.scopes rt rn ns) = [] := by
        have := List.isEmpty_iff.mp hempty
        exact List.map_eq_nil_iff.mp this
      rw [if_pos hempty, hnil]
      have hmapid : (s.issues.map fun i =>
          (if issueRepository.resolveMatches s.scopes rt rn ns i then
            { i with state := IssueStateResolved, resolvedAt := some now,
                     updatedAt := now }
          else i)) = s.issues := by
        apply map_eq_self_of_mem
        intro x hx
        have hx0 : issueRepository.resolveMatches s.scopes rt rn ns x = false := by
          have := List.filter_eq_nil_iff.mp hnil x hx
          simpa using this
        simp [hx0]
      rw [hmapid]
      rfl
    · rw [if_neg hempty]
      have hcount : (s.issues.filter (fun i =>
          ((s.issues.filter
            (issueRepository.resolveMatches s.scopes rt rn ns)).map
            (·.id)).contains i.id)).length =
          (s.issues.filter
            (issueRepository.resolveMatches s.scopes rt rn ns)).length := by
        rw [List.filter_congr hkey]
      have hmap : (s.issues.map fun i =>
          (if ((s.issues.filter
              (issueRepository.resolveMatches s.scopes rt rn ns)).map
              (·.id)).contains i.id then
            { i with state := IssueStateResolved, resolvedAt := some now,
                     updatedAt := now }
          else i)) =
          (s.issues.map fun i =>
            (if issueRepository.resolveMatches s.scopes rt rn ns i then
              { i with state := IssueStateResolved, resolvedAt := some now,
                       updatedAt := now }
            else i)) := by
        apply map_congr_mem
        intro x hx
        rw [hkey x hx]
      rw [hcount, hmap]
  · intro hnil
    unfold issueRepository.ResolveByScope
    rw [hnil]
    rfl

/-- C4, witness: the theorem applied to the empty store, where no issue
matches and the call returns 0 leaving the store unchanged. -/
theorem resolveByScope_spec_witness :
    issueRepository.ResolveByScope emptyStore "c" "n" "a" 7 = (0, emptyStore) :=
  (resolveByScope_spec emptyStore "c" "n" "a" 7 emptyStore_WF).2 (by rfl)

/-! ## C5 -/

/-- C5 (amended): an update whose patch sets state to resolved without a
resolved-at, applied to an issue that is not already resolved, sets the
issue's resolved-at to now and its state to resolved. (The full invariant
"state = resolved iff resolved-at set" is not maintained by the other
paths; see the counterexample.) -/
theorem update_to_resolved_sets_resolvedAt (s : Store) (id : Nat)
    (req : UpdateIssueRequest) (now : Nat)
    (hfound : (issueRepository.FindByID s id).map
      (fun li => li.issue.state) = some IssueStateActive)
    (hst : req.state = some IssueStateResolved) (hra : req.resolvedAt = none) :
    ∃ s2, issueRepository.Update s id req now = .ok (id, s2) ∧
      ∀ i ∈ s2.issues, i.id = id →
        i.state = IssueStateResolved ∧ i.resolvedAt = some now := by
  cases hf : issueRepository.FindByID s id with
  | none => rw [hf] at hfound; exact absurd hfound (by simp)
  | some li =>
      rw [hf] at hfound
      have hstate : li.issue.state = IssueStateActive := by
        simpa using hfound
      refine ⟨_, by rw [issueRepository.Update, hf], ?_⟩
      intro i hi hieq
      rcases List.mem_map.mp hi with ⟨x, hx, rfl⟩
      by_cases hid : (x.id == id) = true
      · rw [if_pos hid]
        constructor
        · rw [issueRepository.applyUpdates_state, hst]
          rfl
        · rw [issueRepository.applyUpdates_resolvedAt, hra, hst]
          have hne : (li.issue.state == IssueStateResolved) = false := by
            rw [hstate]
            rfl
          rw [hne]
          rfl
      · rw [if_neg hid] at hieq ⊢
        exact absurd (beq_iff_eq.mpr hieq) hid

/-- C5, counterexample to the claim as stated: the create path with an
explicit resolved state in the request produces an issue whose state is
resolved while resolved-at is null — the invariant "state = resolved iff
resolved-at is set" does not hold after every lifecycle operation. -/
theorem resolved_invariant_counterexample :
    (applyCreates emptyStore [(exReqResolved, 0)]).issues.map
      (fun i => (i.state, i.resolvedAt)) = [(IssueStateResolved, none)] := by
  decide

/-- C5, witness: the amended theorem applied to a store holding one active
issue and the resolve patch. -/
theorem update_to_resolved_sets_resolvedAt_witness :
    ∃ s2, issueRepository.Update (applyCreates emptyStore [(exReq0, 0)]) 1
        { title := none, description := none, severity := none,
          issueType := none, state := some IssueStateResolved,
          resolvedAt := none, links := none } 9 = .ok (1, s2) ∧
      ∀ i ∈ s2.issues, i.id = 1 →
        i.state = IssueStateResolved ∧ i.resolvedAt = some 9 :=
  update_to_resolved_sets_resolvedAt _ 1 _ 9 (by decide) rfl rfl

/-! ## C6 -/

/-- C6 (code bug): when the repository's `ResolveByScope` fails, the
service's `ResolveIssuesByScope` returns count 0 with a nil error — it
swallows the repository error instead of passing it through, contradicting
the propagation policy (every sibling method passes errors through, and the
webhook handler's error branch for this call is unreachable). -/
theorem resolveIssuesByScope_swallows_error (msg : String) :
    IssueService.ResolveIssuesByScope (.error msg) = .ok 0 := rfl

/-! ## C7 -/

/-- C7, counterexample to the claim as stated: with a configured client
whose access-review call fails with a network error, the middleware
responds 403 Forbidden — not a 5xx status. -/
theorem network_error_gives_403_counterexample :
    NamespaceChecker.CheckNamespacessAccess
      (some fun _ => ReviewOutcome.netError)
      { method := "GET", paramNamespace := "a", queryNamespace := "",
        requestBodyKey := none } =
      MwResult.abort 403 "Access denied to this namespace" := rfl

/-- C7 (amended): when the access-review call fails with a network error on
a request with a resolvable namespace, the middleware aborts with 403
Forbidden, exactly as for an explicit denial; `CheckNamespacessAccess` has
no Unavailable/5xx path. -/
theorem network_error_gives_403 (client : String → ReviewOutcome)
    (c : GinContext) (hns : NamespaceChecker.resolveNamespace c ≠ "")
    (herr : client (NamespaceChecker.resolveNamespace c) =
      ReviewOutcome.netError) :
    NamespaceChecker.CheckNamespacessAccess (some client) c =
      MwResult.abort 403 "Access denied to this namespace" := by
  simp [NamespaceChecker.CheckNamespacessAccess,
    NamespaceChecker.checkPodAccess, hns, herr]

/-- C7, witness: the amended theorem applied to a concrete request and an
always-network-failing client. -/
theorem network_error_gives_403_witness :
    NamespaceChecker.CheckNamespacessAccess
      (some fun _ => ReviewOutcome.netError)
      { method := "GET", paramNamespace := "team-a", queryNamespace := "",
        requestBodyKey := none } =
      MwResult.abort 403 "Access denied to this namespace" :=
  network_error_gives_403 (fun _ => ReviewOutcome.netError)
    { method := "GET", paramNamespace := "team-a", queryNamespace := "",
      requestBodyKey := none } (by decide) rfl

/-! ## C8 -/

/-- C8, counterexample to the claim as stated: on a store holding issue 1
and no relationships, adding a relationship from issue 1 to itself succeeds
and inserts the self-edge — no InvalidInput error is raised. -/
theorem self_relationship_counterexample :
    (issueRepository.AddRelatedIssue
      (applyCreates emptyStore [(exReq0, 0)]) 1 1).map (fun s2 => s2.relations) =
      .ok [{ sourceId := 1, targetId := 1 }] := rfl

/-- C8 (amended): `AddRelatedIssue` with equal source and target succeeds
whenever the issue exists and no such edge is present yet, inserting a
self-relationship row; the repository has no self-relationship check (only
a second attempt fails, with the already-exists error). -/
theorem addRelatedIssue_self_inserts (s : Store) (x : Nat)
    (hex : (issueRepository.FindByID s x).isSome = true)
    (hno : (s.relations.any fun r =>
      (r.sourceId == x && r.targetId == x) ||
      (r.sourceId == x && r.targetId == x)) = false) :
    issueRepository.AddRelatedIssue s x x =
      .ok { s with relations :=
        s.relations ++ [{ sourceId := x, targetId := x }] } := by
  obtain ⟨li, hli⟩ := Option.isSome_iff_exists.mp hex
  simp only [issueRepository.AddRelatedIssue, hli, hno]
  rfl

/-- C8, witness: the amended theorem applied to a one-issue store. -/
theorem addRelatedIssue_self_inserts_witness :
    issueRepository.AddRelatedIssue (applyCreates emptyStore [(exReq0, 0)]) 1 1 =
      .ok { (applyCreates emptyStore [(exReq0, 0)]) with relations :=
        (applyCreates emptyStore [(exReq0, 0)]).relations ++
          [{ sourceId := 1, targetId := 1 }] } :=
  addRelatedIssue_self_inserts (applyCreates emptyStore [(exReq0, 0)]) 1
    (by decide) (by decide)

/-! ## C9 -/

/-- C9 (code bug as the claim describes the intended behavior): a POST
request carrying its namespace only in the JSON body is rejected with 400
Missing namespace before the Authorizer is invoked, whatever the body says
and whether a client is configured. The middleware's body branch reads the
`requestBody` gin-context key, but no code in the repository ever sets that
key, so the branch is dead and body namespaces are never consulted. -/
theorem body_namespace_is_never_used (client : Option (String → ReviewOutcome))
    (b : Option String) :
    NamespaceChecker.CheckNamespacessAccess client
      (ginContextOf
        { method := "POST", paramNamespace := "", queryNamespace := "",
          bodyNamespace := b }) =
      MwResult.abort 400 "Missing namespace" := by
  cases client <;> rfl

/-! ## C10 -/

/-- C10, counterexample to the claim as stated: an issue stored with one
link; `FindByID` returns it with an empty links field while the links table
holds the link — the fetched issue's links do not equal the stored links. -/
theorem findByID_links_counterexample :
    (issueRepository.FindByID (applyCreates emptyStore [(reqLinkOld, 0)]) 1).map
      (fun li => li.links) = some [] ∧
    linksOf (applyCreates emptyStore [(reqLinkOld, 0)]) 1 =
      [{ title := "lo", url := "uo", issueId := 1 }] ∧
    (([] : List Link) ≠ [{ title := "lo", url := "uo", issueId := 1 }]) := by
  refine ⟨rfl, rfl, ?_⟩
  decide

/-- C10 (amended): `FindByID` returns none (not an error) for a missing id;
for an existing id it returns the row with its scope looked up and both
relationship sides listed from the relationship table — but with the links
field left empty, since `Links` is not in this query's preload list. -/
theorem findByID_spec (s : Store) (id : Nat) :
    (s.issues.find? (fun i => i.id == id) = none →
      issueRepository.FindByID s id = none) ∧
    (∀ i, s.issues.find? (fun i2 => i2.id == id) = some i →
      ∃ li, issueRepository.FindByID s id = some li ∧
        li.issue = i ∧ li.scope = scopeOf s.scopes i.scopeId ∧ li.links = [] ∧
        li.relatedFrom.map (fun en => en.rel) =
          s.relations.filter (fun r => r.sourceId == i.id) ∧
        li.relatedTo.map (fun en => en.rel) =
          s.relations.filter (fun r => r.targetId == i.id)) := by
  constructor
  · intro hnone
    unfold issueRepository.FindByID
    rw [hnone]
  · intro i hfind
    refine ⟨_, by rw [issueRepository.FindByID, hfind], rfl, rfl, rfl, ?_, ?_⟩
    · rw [List.map_map]
      exact map_eq_self_of_mem _ _ (fun x _ => rfl)
    · rw [List.map_map]
      exact map_eq_self_of_mem _ _ (fun x _ => rfl)

/-- C10, witness: the none part of the theorem at a store with one issue
and an absent id. -/
theorem findByID_spec_witness :
    issueRepository.FindByID (applyCreates emptyStore [(reqLinkOld, 0)]) 5 =
      none :=
  (findByID_spec (applyCreates emptyStore [(reqLinkOld, 0)]) 5).1 (by decide)
